import Mathlib

set_option maxHeartbeats 1000000

/-!
Verification development for the GuardDog rule-evaluation engine.

The Python sources are shallowly embedded:
* `src/server/python/data_classifier.py`   → section `Classifier`
* `src/server/python/anomaly_detector.py`  → section `Anomaly`
* `src/server/scripts/compliance_scanner.py` → section `Scanner`

Python strings are embedded as lists of character codes (`Str := List Nat`),
`datetime` values as integer epoch seconds, monetary amounts as rationals,
and the behaviour of the CPython `re` module on the concrete patterns of the
repository is given by a small executable backtracking matcher (`mrun`,
`findAll`, `reSub`) that mirrors `re`'s leftmost, greedy, depth-first
semantics with `re.IGNORECASE` compiled into the character classes.
-/

namespace Gaurd

/-- A Python string, embedded as its list of character codes (each a
Unicode code point, as in Python `str`). -/
abbrev Str := List Nat

/-- Embed a concrete Lean string literal as a `Str`. -/
def strCodes (s : String) : Str := s.data.map Char.toNat

/-- ASCII lower-casing of one character code (`A`-`Z` shifted to `a`-`z`). -/
def lowerCode (c : Nat) : Nat := if 65 ≤ c ∧ c ≤ 90 then c + 32 else c

/-- ASCII lower-casing of a string. -/
def lowerStr (s : Str) : Str := s.map lowerCode

/-- ASCII decimal digit (`\d` on the ASCII inputs the engine handles). -/
def isDigitCode (c : Nat) : Bool := decide (48 ≤ c ∧ c ≤ 57)

/-- ASCII letter: under `re.IGNORECASE` both `[A-Z]` and `[a-z]` match these. -/
def isAlphaCode (c : Nat) : Bool := decide ((65 ≤ c ∧ c ≤ 90) ∨ (97 ≤ c ∧ c ≤ 122))

/-- ASCII whitespace (`\s`): space, tab, newline, vertical tab, form feed, CR. -/
def isSpaceCode (c : Nat) : Bool := decide (c = 32 ∨ (9 ≤ c ∧ c ≤ 13))

/-- Word character for `\b`: `[A-Za-z0-9_]`. -/
def isWordCode (c : Nat) : Bool := isDigitCode c || isAlphaCode c || decide (c = 95)

/-- The literal character with code `x` (a case-irrelevant literal). -/
def litEx (x : Nat) (c : Nat) : Bool := decide (c = x)

/-- A literal letter under `re.IGNORECASE`: `l` is the lowercase code and the
class accepts both the lowercase and the uppercase form. -/
def litCI (l : Nat) (c : Nat) : Bool := decide (c = l ∨ c + 32 = l)

/-- `pat` occurs in `text` starting at character offset `i`. -/
def occursAt (text pat : Str) (i : Nat) : Prop := pat <+: text.drop i

instance (text pat : Str) (i : Nat) : Decidable (occursAt text pat i) := by
  unfold occursAt; infer_instance

/-- Helper for `strFind`: index (counting from `i`) of the first suffix that
`pat` is a prefix of. -/
def strFindAux (pat : Str) : Str → Nat → Option Nat
  | [], i => if pat.isEmpty then some i else none
  | c :: rest, i =>
    if pat.isPrefixOf (c :: rest) then some i else strFindAux pat rest (i + 1)

/-- Python `str.find`: offset of the first occurrence of `pat` in `text`,
`-1` when there is none. -/
def strFind (text pat : Str) : Int :=
  match strFindAux pat text 0 with
  | some i => (i : Int)
  | none => -1

/-! ### The regex engine

An abstract syntax for the fragment of `re` used by the repository's patterns:
character classes, sequencing, alternation, greedy `?`, greedy repetition of
a character class (`+`, `{m}`, `{m,}` are built from it) and the word
boundary `\b`.  `re.IGNORECASE` is compiled into the classes themselves. -/

inductive RE : Type where
  | eps : RE
  | cls : (Nat → Bool) → RE
  | seq : RE → RE → RE
  | alt : RE → RE → RE
  | opt : RE → RE
  | star : (Nat → Bool) → RE
  | wb : RE

/-- Greedy Kleene star over a character class: the returned continuation
states are ordered longest-consumed first, as `re`'s backtracking tries them.
A state is `(previously consumed character, remaining input)`. -/
def starRun (p : Nat → Bool) : Option Nat → Str → List (Option Nat × Str)
  | prev, [] => [(prev, [])]
  | prev, c :: rest =>
    if p c then starRun p (some c) rest ++ [(prev, c :: rest)] else [(prev, c :: rest)]

/-- Run a regex from a state `(prev, cs)`; `prev` is the character just before
the current position (`none` at the start of the text), needed by `\b`.
The resulting states are in `re`'s depth-first backtracking order, so the
head of the list is the match `re.match` would return. -/
def mrun : RE → Option Nat → Str → List (Option Nat × Str)
  | .eps, prev, cs => [(prev, cs)]
  | .cls p, _, [] => []
  | .cls p, _, c :: rest => if p c then [(some c, rest)] else []
  | .seq a b, prev, cs => (mrun a prev cs).flatMap fun s => mrun b s.1 s.2
  | .alt a b, prev, cs => mrun a prev cs ++ mrun b prev cs
  | .opt a, prev, cs => mrun a prev cs ++ [(prev, cs)]
  | .star p, prev, cs => starRun p prev cs
  | .wb, prev, cs =>
    let l := match prev with | none => false | some c => isWordCode c
    let r := match cs with | [] => false | c :: _ => isWordCode c
    if l ≠ r then [(prev, cs)] else []

/-- One scanning pass of `re.findall`: at each position try a match; on
success emit the matched span and resume after it, otherwise advance one
character.  `fuel` bounds the recursion; `findAll` supplies enough fuel that
it is never exhausted.  (The repository's patterns cannot match the empty
string; a zero-width match is treated as a failure to advance.) -/
def findAllAux (re : RE) : Nat → Option Nat → Str → List Str
  | 0, _, _ => []
  | _ + 1, _, [] => []
  | fuel + 1, prev, c :: rest =>
    match mrun re prev (c :: rest) with
    | [] => findAllAux re fuel (some c) rest
    | (p', rest') :: _ =>
      let len := (c :: rest).length - rest'.length
      if len = 0 then findAllAux re fuel (some c) rest
      else (c :: rest).take len :: findAllAux re fuel p' rest'

/-- Python `pattern.findall(text)` for a pattern with no capturing groups:
all non-overlapping matches, scanned left to right. -/
def findAll (re : RE) (text : Str) : List Str :=
  findAllAux re (text.length + 1) none text

/-- Scanning pass of `re.sub`, replacing each non-overlapping match by
`repl` (same fuel discipline as `findAllAux`). -/
def reSubAux (re : RE) (repl : Str) : Nat → Option Nat → Str → Str
  | 0, _, cs => cs
  | _ + 1, _, [] => []
  | fuel + 1, prev, c :: rest =>
    match mrun re prev (c :: rest) with
    | [] => c :: reSubAux re repl fuel (some c) rest
    | (p', rest') :: _ =>
      let len := (c :: rest).length - rest'.length
      if len = 0 then c :: reSubAux re repl fuel (some c) rest
      else repl ++ reSubAux re repl fuel p' rest'

/-- Python `pattern.sub(repl, text)`. -/
def reSub (re : RE) (repl : Str) (text : Str) : Str :=
  reSubAux re repl (text.length + 1) none text

/-- Sequence a list of regexes. -/
def seqList (rs : List RE) : RE := rs.foldr RE.seq RE.eps

/-- `{n}`: exactly `n` repetitions of a character class. -/
def repCls (p : Nat → Bool) (n : Nat) : List RE := List.replicate n (RE.cls p)

/-- `+`: one or more repetitions of a character class, greedy. -/
def plusCls (p : Nat → Bool) : RE := RE.seq (RE.cls p) (RE.star p)

/-- `(?:a|b|...)`: alternation tried left to right, as in `re`. -/
def altList : List RE → RE
  | [] => RE.cls fun _ => false
  | [r] => r
  | r :: rs => RE.alt r (altList rs)

/-- A case-insensitive literal word, given by its lowercase codes. -/
def litWordRE (s : Str) : RE := seqList (s.map fun l => RE.cls (litCI l))

end Gaurd

namespace Gaurd

/-! ### `data_classifier.py` (`DataClassifier`) -/

/-- `[\s-]` (credit-card separator). -/
def wsDashCls (c : Nat) : Bool := isSpaceCode c || litEx 45 c

/-- `[-.]` (phone separator). -/
def dotDashCls (c : Nat) : Bool := decide (c = 45 ∨ c = 46)

/-- `[A-Za-z0-9._%+-]` (email local part). -/
def emailLocalCls (c : Nat) : Bool :=
  isAlphaCode c || isDigitCode c || decide (c = 46 ∨ c = 95 ∨ c = 37 ∨ c = 43 ∨ c = 45)

/-- `[A-Za-z0-9.-]` (email domain part). -/
def emailDomainCls (c : Nat) : Bool := isAlphaCode c || isDigitCode c || decide (c = 46 ∨ c = 45)

/-- `[A-Z|a-z]` (email TLD; the source's class literally contains `|`). -/
def letterBarCls (c : Nat) : Bool := isAlphaCode c || decide (c = 124)

/-- `[A-Za-z\s]` (street-name body). -/
def alphaWsCls (c : Nat) : Bool := isAlphaCode c || isSpaceCode c

/-- `\b\d{3}-?\d{2}-?\d{4}\b` (compiled with `re.IGNORECASE`). -/
def ssnRE : RE :=
  seqList ([RE.wb] ++ repCls isDigitCode 3 ++ [RE.opt (RE.cls (litEx 45))] ++
    repCls isDigitCode 2 ++ [RE.opt (RE.cls (litEx 45))] ++ repCls isDigitCode 4 ++ [RE.wb])

/-- `\b\d{4}[\s-]?\d{4}[\s-]?\d{4}[\s-]?\d{4}\b`. -/
def creditCardRE : RE :=
  seqList ([RE.wb] ++ repCls isDigitCode 4 ++ [RE.opt (RE.cls wsDashCls)] ++
    repCls isDigitCode 4 ++ [RE.opt (RE.cls wsDashCls)] ++ repCls isDigitCode 4 ++
    [RE.opt (RE.cls wsDashCls)] ++ repCls isDigitCode 4 ++ [RE.wb])

/-- `\b[A-Za-z0-9._%+-]+@[A-Za-z0-9.-]+\.[A-Z|a-z]{2,}\b`. -/
def emailRE : RE :=
  seqList [RE.wb, plusCls emailLocalCls, RE.cls (litEx 64), plusCls emailDomainCls,
    RE.cls (litEx 46), RE.cls letterBarCls, RE.cls letterBarCls, RE.star letterBarCls, RE.wb]

/-- `\b\d{3}[-.]?\d{3}[-.]?\d{4}\b`. -/
def phoneRE : RE :=
  seqList ([RE.wb] ++ repCls isDigitCode 3 ++ [RE.opt (RE.cls dotDashCls)] ++
    repCls isDigitCode 3 ++ [RE.opt (RE.cls dotDashCls)] ++ repCls isDigitCode 4 ++ [RE.wb])

/-- The road-type suffix alternation of the address pattern, in source order. -/
def roadWords : List Str :=
  [strCodes "street", strCodes "st", strCodes "avenue", strCodes "ave", strCodes "road",
   strCodes "rd", strCodes "drive", strCodes "dr", strCodes "lane", strCodes "ln",
   strCodes "boulevard", strCodes "blvd"]

/-- `\b\d+\s+[A-Za-z\s]+(?:Street|St|Avenue|Ave|Road|Rd|Drive|Dr|Lane|Ln|Boulevard|Blvd)\b`. -/
def addressRE : RE :=
  seqList [RE.wb, plusCls isDigitCode, plusCls isSpaceCode, plusCls alphaWsCls,
    altList (roadWords.map litWordRE), RE.wb]

/-- `\b[A-Z][a-z]+\s+[A-Z][a-z]+\b` — under `re.IGNORECASE` the case
distinction in the classes disappears. -/
def nameRE : RE :=
  seqList [RE.wb, RE.cls isAlphaCode, plusCls isAlphaCode, plusCls isSpaceCode,
    RE.cls isAlphaCode, plusCls isAlphaCode, RE.wb]

/-- One entry of `DataClassifier.patterns`. -/
structure PatCfg where
  re : RE
  risk : String
  descr : String

/-- `DataClassifier.patterns`, in dict insertion order. -/
def classifierPatterns : List (String × PatCfg) :=
  [("ssn", ⟨ssnRE, "high", "Social Security Number"⟩),
   ("credit_card", ⟨creditCardRE, "high", "Credit Card Number"⟩),
   ("email", ⟨emailRE, "medium", "Email Address"⟩),
   ("phone", ⟨phoneRE, "medium", "Phone Number"⟩),
   ("address", ⟨addressRE, "low", "Street Address"⟩),
   ("name", ⟨nameRE, "low", "Personal Name"⟩)]

/-- The redaction map of `DataClassifier._redact_content`. -/
def redactionMap : List (String × String) :=
  [("ssn", "XXX-XX-XXXX"), ("credit_card", "XXXX-XXXX-XXXX-XXXX"),
   ("email", "[EMAIL_REDACTED]"), ("phone", "XXX-XXX-XXXX"),
   ("address", "[ADDRESS_REDACTED]"), ("name", "[NAME_REDACTED]")]

/-- The fixed placeholder for a pattern type (`redaction_map.get(data_type,
'[REDACTED]')`). -/
def redactionFor (dataType : String) : Str :=
  strCodes ((redactionMap.lookup dataType).getD "[REDACTED]")

/-- `DataClassifier._redact_content(content, data_type)` — the content
argument is ignored by the source; only the type selects the placeholder. -/
def redactContent (content : Str) (dataType : String) : Str :=
  redactionFor dataType

/-- One record appended by `DataClassifier.classify_text`. -/
structure Classification where
  ctype : String
  risk : String
  description : String
  originalContent : Str
  redactedContent : Str
  position : Int
deriving DecidableEq

/-- The record built for one `findall` match of pattern `t`. -/
def mkClassification (text : Str) (t : String) (cfg : PatCfg) (m : Str) : Classification :=
  { ctype := t, risk := cfg.risk, description := cfg.descr, originalContent := m,
    redactedContent := redactContent m t, position := strFind text m }

/-- `DataClassifier.classify_text`: for each pattern in order, all `findall`
matches, each classified and appended. -/
def classifyText (text : Str) : List Classification :=
  classifierPatterns.flatMap fun tc => (findAll tc.2.re text).map (mkClassification text tc.1 tc.2)

end Gaurd

namespace Gaurd

/-! ### `anomaly_detector.py` (`AnomalyDetector`)

`datetime` values are embedded as integer epoch seconds; call counts become
rationals (Python numbers).  The formatted `description` strings of the
source (float `f`-strings) are not modelled; every other field of an anomaly
record is. -/

/-- The `lastActivity` field of a telemetry source: absent (or falsy),
present but unparseable by `datetime.fromisoformat`, or a parsed instant. -/
inductive ActField : Type where
  | absent : ActField
  | bad : ActField
  | stamp (t : ℤ) : ActField
deriving DecidableEq

/-- A telemetry source record as consumed by `_analyze_source`;
`none` fields are absent dict keys (defaults applied at the `get` sites). -/
structure ApiSource where
  name : Option String
  callsToday : Option ℚ
  status : Option String
  alertStatus : Option String
  lastActivity : ActField
deriving DecidableEq

/-- `source.get('name', 'Unknown')`. -/
def nameOf (src : ApiSource) : String := src.name.getD "Unknown"

/-- `source.get('callsToday', 0)`. -/
def callsOf (src : ApiSource) : ℚ := src.callsToday.getD 0

/-- `source.get('status', 'unknown')`. -/
def statusOf (src : ApiSource) : String := src.status.getD "unknown"

/-- `source.get('alertStatus', 'normal')`. -/
def alertOf (src : ApiSource) : String := src.alertStatus.getD "normal"

/-- `AnomalyDetector.thresholds['call_volume_multiplier']`. -/
def callVolumeMultiplier : ℚ := 3

/-- One anomaly record (metadata fields flattened; unused fields `none`). -/
structure AFinding where
  source : String
  ftype : String
  severity : String
  metaCalls : Option ℚ
  metaAvg : Option ℚ
  metaMult : Option ℚ
  metaStatus : Option String
  metaAlert : Option String
  metaHoursSince : Option ℚ
deriving DecidableEq

/-- The `severity_map` of the alert-escalation check. -/
def alertSeverityMap : List (String × String) :=
  [("elevated", "warning"), ("high", "warning"), ("critical", "critical")]

/-- `severity_map.get(alert_status, 'warning')`. -/
def alertSeverityFor (alertStatus : String) : String :=
  (alertSeverityMap.lookup alertStatus).getD "warning"

/-- The volume-spike block of `_analyze_source` (lines 37-49). -/
def volumeFindings (src : ApiSource) (avgCalls : ℚ) : List AFinding :=
  if 0 < avgCalls ∧ avgCalls * callVolumeMultiplier < callsOf src then
    [{ source := nameOf src, ftype := "volume_spike",
       severity := if callsOf src < avgCalls * 5 then "warning" else "critical",
       metaCalls := some (callsOf src), metaAvg := some avgCalls,
       metaMult := some (if 0 < avgCalls then callsOf src / avgCalls else 0),
       metaStatus := none, metaAlert := none, metaHoursSince := none }]
  else []

/-- The service-status block of `_analyze_source` (lines 51-62). -/
def statusFindings (src : ApiSource) : List AFinding :=
  if statusOf src ≠ "active" then
    [{ source := nameOf src, ftype := "service_status",
       severity := if statusOf src = "down" then "critical" else "warning",
       metaCalls := none, metaAvg := none, metaMult := none,
       metaStatus := some (statusOf src), metaAlert := none, metaHoursSince := none }]
  else []

/-- The alert-escalation block of `_analyze_source` (lines 64-81). -/
def alertFindings (src : ApiSource) : List AFinding :=
  if alertOf src ≠ "normal" then
    [{ source := nameOf src, ftype := "alert_escalation",
       severity := alertSeverityFor (alertOf src),
       metaCalls := none, metaAvg := none, metaMult := none,
       metaStatus := none, metaAlert := some (alertOf src), metaHoursSince := none }]
  else []

/-- The stale-data block of `_analyze_source` (lines 83-103); `now` is the
wall clock read by `datetime.now()`, and an unparseable timestamp is
silently skipped by the `except` clause. -/
def staleFindings (src : ApiSource) (now : ℤ) : List AFinding :=
  match src.lastActivity with
  | .absent => []
  | .bad => []
  | .stamp t =>
    if 7200 < now - t then
      [{ source := nameOf src, ftype := "stale_data", severity := "warning",
         metaCalls := none, metaAvg := none, metaMult := none,
         metaStatus := none, metaAlert := none,
         metaHoursSince := some ((now - t : ℚ) / 3600) }]
    else []

/-- `AnomalyDetector._analyze_source(source, avg_calls)`: the four checks in
source order. -/
def analyzeSource (src : ApiSource) (avgCalls : ℚ) (now : ℤ) : List AFinding :=
  volumeFindings src avgCalls ++ statusFindings src ++ alertFindings src ++
    staleFindings src now

end Gaurd

namespace Gaurd

/-! ### `compliance_scanner.py`

The rules JSON document is external configuration (not in the repository);
its parsed shape is embedded structurally.  A pattern's regex source string
is embedded as `RegexSrc`: either a string that `re.compile` accepts,
together with the compiled matcher, or a string it rejects with `re.error`.
Exceptions escaping a function are `Except.error`. -/

/-- A regex source string as found in the rules file, by compilation
outcome under `re.compile`. -/
inductive RegexSrc : Type where
  | ok (re : RE) : RegexSrc
  | bad : RegexSrc

/-- One entry of `pii_detection.patterns`. -/
structure PatSrc where
  regex : RegexSrc
  action : Option String
  severity : Option String

/-- The `pii_detection` category of the rules document. -/
structure PiiSection where
  enabled : Bool
  patterns : List (String × PatSrc)

/-- `financial_compliance.rules.high_value_transaction` (an empty or absent
dict is `none`: both are falsy at the `if high_value_cfg` guard). -/
structure HighValueCfg where
  threshold : Option ℚ
  action : Option String
  severity : Option String
deriving DecidableEq

/-- The `timeWindow` token of the rapid-transactions rule, by the outcome of
the parsing at lines 88-94: a token containing `hour` with numeric prefix
`n` gives `n * 60` minutes, one containing `minute` gives `n` minutes, any
other (truthy) token gives 60 minutes. -/
inductive TimeTok : Type where
  | hours (n : ℕ) : TimeTok
  | minutes (n : ℕ) : TimeTok
  | other : TimeTok
deriving DecidableEq

/-- `financial_compliance.rules.rapid_transactions`; `timeWindow = none`
covers an absent or falsy token. -/
structure RapidCfg where
  timeWindow : Option TimeTok
  count : Option ℕ
  action : Option String
  severity : Option String
deriving DecidableEq

/-- The `financial_compliance` category. -/
structure FinSection where
  enabled : Bool
  highValue : Option HighValueCfg
  rapid : Option RapidCfg

/-- The parsed rules document (`rules["rules"]`), restricted to the two
categories the scanner reads. -/
structure RuleDoc where
  piiSection : Option PiiSection
  finSection : Option FinSection

/-- `load_rules()`: `json.load` on the rules file.  The argument is the
file's content: `none` when it is not well-formed JSON (a
`json.JSONDecodeError` escapes), `some doc` when it parses to `doc`.
No pattern is examined, let alone compiled, at load time. -/
def loadRules (fileContent : Option RuleDoc) : Except String RuleDoc :=
  match fileContent with
  | none => .error "json.JSONDecodeError"
  | some doc => .ok doc

/-- A finding appended by `scan_text` (lines 46-57); `emittedAt` is the
`datetime.utcnow()` wall-clock reading. -/
structure PFinding where
  ftype : String
  subtype : String
  matchCount : ℕ
  action : String
  severity : String
  source : String
  content : Str
  emittedAt : ℤ
deriving DecidableEq

/-- The replacement label of `_redact`: `<{label.upper()}_REDACTED>`. -/
def redactLabel (name : String) : Str :=
  strCodes ("<" ++ name.toUpper ++ "_REDACTED>")

/-- The loop of `scan_text` over `pii_rules["patterns"]`: each pattern is
compiled at this point (`re.compile`, line 41); a compilation failure
raises out of the whole call. -/
def scanPiiPatterns (pats : List (String × PatSrc)) (text : Str) (source : String)
    (now : ℤ) : Except String (List PFinding) :=
  match pats with
  | [] => .ok []
  | (name, cfg) :: rest =>
    match cfg.regex with
    | .bad => .error ("re.error in pattern " ++ name)
    | .ok re =>
      match scanPiiPatterns rest text source now with
      | .error e => .error e
      | .ok fs =>
        let ms := findAll re text
        if ms.isEmpty then .ok fs
        else
          .ok ({ ftype := "pii_detection", subtype := name, matchCount := ms.length,
                 action := cfg.action.getD "alert", severity := cfg.severity.getD "medium",
                 source := source, content := reSub re (redactLabel name) text,
                 emittedAt := now } :: fs)

/-- `scan_text(text, rules, source)`. -/
def scanTextC (rules : RuleDoc) (text : Str) (now : ℤ) : Except String (List PFinding) :=
  match rules.piiSection with
  | none => .ok []
  | some pii =>
    if pii.enabled then scanPiiPatterns pii.patterns text "logs" now else .ok []

/-- A transaction's timestamp field (`tx.get("timestamp") or tx.get("date")`):
absent/falsy, present but rejected by `datetime.fromisoformat`, or parsed. -/
inductive TsField : Type where
  | missing : TsField
  | bad : TsField
  | ok (t : ℤ) : TsField
deriving DecidableEq

/-- The `amount` field of a transaction, by the outcome of
`float(tx.get("amount", 0))` (line 97): an absent key (`float(0)` gives 0),
a numeric value, or a non-numeric value on which `float` raises
`ValueError` — the scanner does not catch that exception. -/
inductive AmountField : Type where
  | missing : AmountField
  | num (q : ℚ) : AmountField
  | bad : AmountField
deriving DecidableEq

/-- A transaction record. -/
structure TxRec where
  amount : AmountField
  time : TsField
deriving DecidableEq

/-- `float(tx.get("amount", 0))`: the converted amount, or the uncaught
`ValueError` that a non-numeric value raises out of `scan_transactions`. -/
def floatAmount : AmountField → Except String ℚ
  | .missing => .ok 0
  | .num q => .ok q
  | .bad => .error "ValueError"

deriving instance DecidableEq for Except

/-- The parsed timestamp `ts` of a transaction (`None` on absence or parse
failure, lines 99-104). -/
def txTime (tx : TxRec) : Option ℤ :=
  match tx.time with
  | .ok t => some t
  | _ => none

/-- A finding appended by `scan_transactions`; fields not present in the
respective dict are `none`. -/
structure TFinding where
  ftype : String
  subtype : String
  amount : Option ℚ
  thresholdQ : Option ℚ
  txCount : Option ℕ
  thresholdN : Option ℕ
  windowMin : Option ℕ
  action : String
  severity : String
  source : String
  tx : TxRec
  emittedAt : ℤ
deriving DecidableEq

/-- `window_minutes` as computed once before the loop (lines 85-94). -/
def windowMinutes (rapid : Option RapidCfg) : ℕ :=
  match rapid with
  | none => 0
  | some cfg =>
    match cfg.timeWindow with
    | none => 0
    | some (.hours n) => n * 60
    | some (.minutes n) => n
    | some .other => 60

/-- The high-value check on one transaction (lines 106-119), given the
amount `a` that `float()` converted; the missing `threshold` key defaults
to `float("inf")`, which no amount exceeds. -/
def hvFindings (hv : Option HighValueCfg) (now : ℤ) (a : ℚ) (tx : TxRec) : List TFinding :=
  match hv with
  | none => []
  | some cfg =>
    match cfg.threshold with
    | none => []
    | some th =>
      if th < a then
        [{ ftype := "financial_compliance", subtype := "high_value_transaction",
           amount := some a, thresholdQ := some th,
           txCount := none, thresholdN := none, windowMin := none,
           action := cfg.action.getD "alert", severity := cfg.severity.getD "high",
           source := "transactions", tx := tx, emittedAt := now }]
      else []

/-- The rapid-transactions finding for one breaching transaction. -/
def mkRapidFinding (cfg : RapidCfg) (w : ℕ) (now : ℤ) (tx : TxRec) (cnt : ℕ) : TFinding :=
  { ftype := "financial_compliance", subtype := "rapid_transactions",
    amount := none, thresholdQ := none, txCount := some cnt, thresholdN := cfg.count,
    windowMin := some w, action := cfg.action.getD "alert",
    severity := cfg.severity.getD "critical", source := "transactions",
    tx := tx, emittedAt := now }

/-- The rolling-window update and count check on one transaction
(lines 121-140): evict (only when `window_minutes > 0`), append, then
compare the count (`rapid_cfg.get("count")` must be truthy, so `0` or a
missing key disables the check). -/
def rapidStep (rapid : Option RapidCfg) (w : ℕ) (now : ℤ) (tsList : List ℤ)
    (tx : TxRec) : List ℤ × List TFinding :=
  match rapid, txTime tx with
  | some cfg, some t =>
    let kept := if 0 < w then tsList.filter (fun u => decide (t - 60 * (w : ℤ) ≤ u)) else tsList
    let upd := kept ++ [t]
    let fire :=
      match cfg.count with
      | some n => decide (0 < n) && decide (n < upd.length)
      | none => false
    (upd, if fire then [mkRapidFinding cfg w now tx upd.length] else [])
  | _, _ => (tsList, [])

/-- The loop body of `scan_transactions` for one transaction once `float()`
has converted its amount to `a`: the high-value check runs first, then the
rolling-window check. -/
def txStep (hv : Option HighValueCfg) (rapid : Option RapidCfg) (w : ℕ) (now : ℤ)
    (a : ℚ) (tsList : List ℤ) (tx : TxRec) : List ℤ × List TFinding :=
  let r := rapidStep rapid w now tsList tx
  (r.1, hvFindings hv now a tx ++ r.2)

/-- The loop of `scan_transactions` from a given accumulator state; returns
the final `timestamps` list and the findings in emission order, or the
uncaught `ValueError` of a non-numeric amount (line 97 runs first in the
loop body and nothing catches it, so the whole call aborts and any findings
from earlier records are lost). -/
def scanFrom (hv : Option HighValueCfg) (rapid : Option RapidCfg) (w : ℕ) (now : ℤ) :
    List ℤ → List TxRec → Except String (List ℤ × List TFinding)
  | tsList, [] => .ok (tsList, [])
  | tsList, tx :: rest =>
    match floatAmount tx.amount with
    | .error e => .error e
    | .ok a =>
      let s := txStep hv rapid w now a tsList tx
      match scanFrom hv rapid w now s.1 rest with
      | .error e => .error e
      | .ok r => .ok (r.1, s.2 ++ r.2)

/-- `scan_transactions(transactions, rules)`: category gate, window
preparation, then the loop with a freshly initialised `timestamps = []`;
an uncaught `ValueError` propagates to the caller. -/
def scanTransactions (rules : RuleDoc) (txs : List TxRec) (now : ℤ) :
    Except String (List TFinding) :=
  match rules.finSection with
  | none => .ok []
  | some fin =>
    if fin.enabled then
      (scanFrom fin.highValue fin.rapid (windowMinutes fin.rapid) now [] txs).map
        (fun r => r.2)
    else .ok []

/-- The timestamps of a batch that parse, in order. -/
def parsedTimes (txs : List TxRec) : List ℤ := txs.filterMap txTime

/-- A finding with its wall-clock emission stamp cleared. -/
def eraseEmitted (f : TFinding) : TFinding := { f with emittedAt := 0 }

end Gaurd

namespace Gaurd

/-! ### Concrete inputs used by counterexamples and witnesses -/

/-- A rapid-transactions rule with a 60-minute window and max count 5. -/
def c2Rapid : RapidCfg :=
  { timeWindow := some (.minutes 60), count := some 5, action := none, severity := none }

/-- A rules document enabling only the rapid-transactions rule above. -/
def c2Rules : RuleDoc :=
  { piiSection := none,
    finSection := some { enabled := true, highValue := none, rapid := some c2Rapid } }

/-- Six transactions within 10 minutes (times in seconds). -/
def c2BatchTight : List TxRec :=
  [{ amount := .missing, time := .ok 0 }, { amount := .missing, time := .ok 100 },
   { amount := .missing, time := .ok 200 }, { amount := .missing, time := .ok 300 },
   { amount := .missing, time := .ok 400 }, { amount := .missing, time := .ok 500 }]

/-- Six transactions spaced 20 minutes apart (spanning 100 minutes). -/
def c2BatchSpread : List TxRec :=
  [{ amount := .missing, time := .ok 0 }, { amount := .missing, time := .ok 1200 },
   { amount := .missing, time := .ok 2400 }, { amount := .missing, time := .ok 3600 },
   { amount := .missing, time := .ok 4800 }, { amount := .missing, time := .ok 6000 }]

/-- A text holding one SSN-shaped substring. -/
def ssnText : Str := strCodes "SSN 123-45-6789"

/-- A structurally well-formed rules document whose single PII pattern fails
to compile under `re.compile`. -/
def badRegexDoc : RuleDoc :=
  { piiSection := some
      { enabled := true,
        patterns := [("ssn", { regex := .bad, action := none, severity := none })] },
    finSection := none }

/-- A rules document with only a high-value threshold of 1000. -/
def hvRules : RuleDoc :=
  { piiSection := none,
    finSection := some
      { enabled := true,
        highValue := some { threshold := some 1000, action := none, severity := none },
        rapid := none } }

/-- A single transaction above that threshold. -/
def bigTx : TxRec := { amount := .num 5000, time := .missing }

/-- A rapid rule with a 60-minute window and max count 2. -/
def c3Cfg : RapidCfg :=
  { timeWindow := some (.minutes 60), count := some 2, action := none, severity := none }

/-- A transaction at time 3600 s. -/
def c3Tx : TxRec := { amount := .missing, time := .ok 3600 }

/-- A high-value rule with threshold 1000. -/
def c6Hv : HighValueCfg := { threshold := some 1000, action := none, severity := none }

/-- A high-value transaction whose timestamp does not parse. -/
def c6BadTx : TxRec := { amount := .num 5000, time := .bad }

/-- A small transaction with a parseable timestamp. -/
def c6GoodTx : TxRec := { amount := .missing, time := .ok 10 }

/-- A transaction whose amount is a value `float()` rejects. -/
def c6BadAmountTx : TxRec := { amount := .bad, time := .missing }

/-- A rapid rule with max count 2 and no `timeWindow` token. -/
def c10Cfg : RapidCfg :=
  { timeWindow := none, count := some 2, action := none, severity := none }

/-- Five transactions, one unparseable, the rest days apart. -/
def c10Batch : List TxRec :=
  [{ amount := .missing, time := .ok 0 }, { amount := .missing, time := .ok 100000 },
   { amount := .missing, time := .bad }, { amount := .missing, time := .ok 200000 },
   { amount := .missing, time := .ok 300000 }]

/-- With no eviction, the number of count-rule breaches among the next `k`
timestamped events when `m` timestamps are already stored and the
configured count is `n`: the i-th of them fires iff `n < m + i`. -/
def rapidFireCount (n : ℕ) : ℕ → ℕ → ℕ
  | _, 0 => 0
  | m, k + 1 => (if n < m + 1 then 1 else 0) + rapidFireCount n (m + 1) k

/-- A telemetry source at 3.5 times a baseline of 100. -/
def c4SrcWarn : ApiSource :=
  { name := some "api-a", callsToday := some 350, status := some "active",
    alertStatus := some "normal", lastActivity := .absent }

/-- A telemetry source at 6 times a baseline of 100. -/
def c4SrcCrit : ApiSource :=
  { name := some "api-b", callsToday := some 600, status := some "active",
    alertStatus := some "normal", lastActivity := .absent }

/-- A degraded telemetry source with an unmapped alert status. -/
def c8Src : ApiSource :=
  { name := some "api-c", callsToday := some 0, status := some "degraded",
    alertStatus := some "odd_state", lastActivity := .absent }

/-- A character class is case-blind when lower-casing the input character
never changes whether it matches (what `re.IGNORECASE` compilation makes
true of every class of the classifier's patterns). -/
def ClassBlind (p : Nat → Bool) : Prop := ∀ c, p (lowerCode c) = p c

/-- A regex all of whose character classes are case-blind. -/
inductive CaseBlind : RE → Prop where
  | eps : CaseBlind .eps
  | cls : ∀ {p : Nat → Bool}, ClassBlind p → CaseBlind (.cls p)
  | seq : ∀ {a b : RE}, CaseBlind a → CaseBlind b → CaseBlind (.seq a b)
  | alt : ∀ {a b : RE}, CaseBlind a → CaseBlind b → CaseBlind (.alt a b)
  | opt : ∀ {a : RE}, CaseBlind a → CaseBlind (.opt a)
  | star : ∀ {p : Nat → Bool}, ClassBlind p → CaseBlind (.star p)
  | wb : CaseBlind .wb

/-- Lower-casing a matcher state. -/
def lowerState (s : Option Nat × Str) : Option Nat × Str :=
  (s.1.map lowerCode, lowerStr s.2)

/-- A text with repeated and cross-type matches. -/
def c7Text : Str := strCodes "Call 123-45-6789 or 987-65-4321 at 12 Main Street"

end Gaurd

namespace Gaurd

/-! ### Theorems -/

/-- C2: with `maxCount = 5` and a 60-minute window, six parseable-timestamp
transactions within 10 minutes yield exactly one `rapid_transactions`
finding, triggered by the sixth transaction (the one at time 500); six
transactions spaced 20 minutes apart yield none. -/
theorem rapid_window_test_batches :
    scanTransactions c2Rules c2BatchTight 0 =
      .ok [{ ftype := "financial_compliance", subtype := "rapid_transactions", amount := none,
             thresholdQ := none, txCount := some 6, thresholdN := some 5, windowMin := some 60,
             action := "alert", severity := "critical", source := "transactions",
             tx := { amount := .missing, time := .ok 500 }, emittedAt := 0 }]
    ∧ scanTransactions c2Rules c2BatchSpread 0 = .ok [] := by
  exact ⟨rfl, rfl⟩

/-- C1 counterexample: on the text `"SSN 123-45-6789"` the single finding
emitted by `classify_text` carries the original matched sensitive substring
`"123-45-6789"` verbatim in its `originalContent` field, so a field of the
finding record does reproduce the matched span. -/
theorem classify_finding_contains_original :
    classifyText ssnText =
      [{ ctype := "ssn", risk := "high", description := "Social Security Number",
         originalContent := strCodes "123-45-6789",
         redactedContent := strCodes "XXX-XX-XXXX", position := 4 }] := by
  rfl

/-- C1 amended: every finding's `redactedContent` is the fixed type-specific
placeholder, a function of the pattern type alone; but the finding's
`originalContent` field holds the matched span itself (an element of the
pattern's `findall` result on the text). -/
theorem classify_redacts_to_fixed_placeholder (text : Str) (c : Classification)
    (h : c ∈ classifyText text) :
    c.redactedContent = redactionFor c.ctype
    ∧ ∃ cfg : PatCfg, (c.ctype, cfg) ∈ classifierPatterns
        ∧ c.originalContent ∈ findAll cfg.re text := by
  unfold classifyText at h
  rw [List.mem_flatMap] at h
  obtain ⟨tc, htc, hc⟩ := h
  rw [List.mem_map] at hc
  obtain ⟨m, hm, rfl⟩ := hc
  exact ⟨rfl, tc.2, by simpa [mkClassification] using htc, hm⟩

/-- Witness for the C1 amended theorem at the `"SSN 123-45-6789"` input. -/
theorem classify_redacts_to_fixed_placeholder_witness :
    (mkClassification ssnText "ssn" ⟨ssnRE, "high", "Social Security Number"⟩
        (strCodes "123-45-6789")).redactedContent = redactionFor "ssn" :=
  (classify_redacts_to_fixed_placeholder ssnText _ (by decide)).1

/-- C5 counterexample: `load_rules` succeeds on a structurally well-formed
rules document whose PII pattern does not compile, and the subsequent
`scan_text` call then fails with the compilation error — so patterns are
not validated at load time and a scan after a successful load can fail. -/
theorem load_accepts_bad_pattern_scan_fails :
    loadRules (some badRegexDoc) = .ok badRegexDoc
    ∧ scanTextC badRegexDoc (strCodes "hello") 0 = .error "re.error in pattern ssn" :=
  ⟨rfl, rfl⟩

/-- Error cases of the `scan_text` pattern loop: it raises exactly when some
configured pattern fails to compile (compilation happens per call, before
any match test). -/
theorem scanPiiPatterns_error_iff (pats : List (String × PatSrc)) (text : Str)
    (source : String) (now : ℤ) :
    (∃ e, scanPiiPatterns pats text source now = .error e)
      ↔ ∃ p ∈ pats, p.2.regex = RegexSrc.bad := by
  induction pats with
  | nil => simp [scanPiiPatterns]
  | cons hd rest ih =>
    obtain ⟨name, cfg⟩ := hd
    cases hreg : cfg.regex with
    | bad =>
      simp only [scanPiiPatterns, hreg]
      exact ⟨fun _ => ⟨(name, cfg), List.mem_cons_self _ _, hreg⟩, fun _ => ⟨_, rfl⟩⟩
    | ok re =>
      constructor
      · rintro ⟨e, he⟩
        simp only [scanPiiPatterns, hreg] at he
        cases hrec : scanPiiPatterns rest text source now with
        | error e2 =>
          obtain ⟨p, hp, hbad⟩ := ih.mp ⟨e2, hrec⟩
          exact ⟨p, List.mem_cons_of_mem _ hp, hbad⟩
        | ok fs =>
          rw [hrec] at he
          by_cases hms : (findAll re text).isEmpty <;> simp [hms] at he
      · rintro ⟨p, hp, hbad⟩
        rcases List.mem_cons.mp hp with rfl | hp2
        · rw [hbad] at hreg; cases hreg
        · obtain ⟨e, he⟩ := ih.mpr ⟨p, hp2, hbad⟩
          exact ⟨e, by simp only [scanPiiPatterns, hreg, he]⟩

/-- C5 amended: `load_rules` performs no pattern validation (it succeeds on
any structurally well-formed document, compilable patterns or not); each
pattern is compiled inside `scan_text` at use time, and a scan fails with a
pattern-compilation error exactly when PII detection is enabled and some
configured pattern fails to compile. -/
theorem patterns_compiled_at_scan_not_load (doc : RuleDoc) (text : Str) (now : ℤ) :
    loadRules (some doc) = .ok doc
    ∧ ((∃ e, scanTextC doc text now = .error e) ↔
        ∃ pii, doc.piiSection = some pii ∧ pii.enabled = true
          ∧ ∃ p ∈ pii.patterns, p.2.regex = RegexSrc.bad) := by
  refine ⟨rfl, ?_⟩
  cases hpii : doc.piiSection with
  | none => simp [scanTextC, hpii]
  | some pii =>
    by_cases hen : pii.enabled
    · simp [scanTextC, hpii, hen, scanPiiPatterns_error_iff]
    · simp [scanTextC, hpii, hen]

/-- C9 counterexample: the same batch scanned at two different wall-clock
instants yields different finding sequences, because every finding embeds
the `datetime.utcnow()` reading taken at emission. -/
theorem scan_transactions_output_varies_with_clock :
    scanTransactions hvRules [bigTx] 0 ≠ scanTransactions hvRules [bigTx] 1 := by
  decide

theorem hvFindings_erase (hv : Option HighValueCfg) (n₁ n₂ : ℤ) (a : ℚ) (tx : TxRec) :
    (hvFindings hv n₁ a tx).map eraseEmitted = (hvFindings hv n₂ a tx).map eraseEmitted := by
  cases hv with
  | none => rfl
  | some cfg =>
    cases hth : cfg.threshold with
    | none => simp [hvFindings, hth]
    | some th =>
      simp only [hvFindings, hth]
      split <;> simp [eraseEmitted]

theorem rapidStep_clock (rapid : Option RapidCfg) (w : ℕ) (n₁ n₂ : ℤ)
    (ts : List ℤ) (tx : TxRec) :
    (rapidStep rapid w n₁ ts tx).1 = (rapidStep rapid w n₂ ts tx).1
    ∧ (rapidStep rapid w n₁ ts tx).2.map eraseEmitted
        = (rapidStep rapid w n₂ ts tx).2.map eraseEmitted := by
  cases rapid with
  | none => exact ⟨rfl, rfl⟩
  | some cfg =>
    cases htx : txTime tx with
    | none => simp [rapidStep, htx]
    | some t =>
      simp only [rapidStep, htx]
      refine ⟨trivial, ?_⟩
      split <;> split <;> simp [mkRapidFinding, eraseEmitted]

theorem scanFrom_clock (hv : Option HighValueCfg) (rapid : Option RapidCfg) (w : ℕ)
    (n₁ n₂ : ℤ) (txs : List TxRec) : ∀ ts : List ℤ,
    (∃ e, scanFrom hv rapid w n₁ ts txs = .error e
        ∧ scanFrom hv rapid w n₂ ts txs = .error e)
    ∨ ∃ r₁ r₂, scanFrom hv rapid w n₁ ts txs = .ok r₁
        ∧ scanFrom hv rapid w n₂ ts txs = .ok r₂
        ∧ r₁.1 = r₂.1 ∧ r₁.2.map eraseEmitted = r₂.2.map eraseEmitted := by
  induction txs with
  | nil => intro ts; exact Or.inr ⟨(ts, []), (ts, []), rfl, rfl, rfl, rfl⟩
  | cons tx rest ih =>
    intro ts
    cases hfa : floatAmount tx.amount with
    | error e =>
      exact Or.inl ⟨e, by simp [scanFrom, hfa], by simp [scanFrom, hfa]⟩
    | ok a =>
      obtain ⟨h1, h2⟩ := rapidStep_clock rapid w n₁ n₂ ts tx
      have hst : (txStep hv rapid w n₁ a ts tx).1 = (txStep hv rapid w n₂ a ts tx).1 := h1
      have hfnd : (txStep hv rapid w n₁ a ts tx).2.map eraseEmitted
          = (txStep hv rapid w n₂ a ts tx).2.map eraseEmitted := by
        simp only [txStep, List.map_append, hvFindings_erase hv n₁ n₂ a tx, h2]
      rcases ih ((txStep hv rapid w n₁ a ts tx).1) with ⟨e, he₁, he₂⟩ | ⟨r₁, r₂, hr₁, hr₂, hs, hf⟩
      · refine Or.inl ⟨e, ?_, ?_⟩
        · simp only [scanFrom, hfa, he₁]
        · rw [hst] at he₂
          simp only [scanFrom, hfa, he₂]
      · refine Or.inr ⟨(r₁.1, (txStep hv rapid w n₁ a ts tx).2 ++ r₁.2),
          (r₂.1, (txStep hv rapid w n₂ a ts tx).2 ++ r₂.2), ?_, ?_, hs, ?_⟩
        · simp only [scanFrom, hfa, hr₁]
        · rw [hst] at hr₂
          simp only [scanFrom, hfa, hr₂]
        · simp only [List.map_append, hf, hfnd]

/-- C9 amended: two invocations of `scan_transactions` on the same immutable
batch with the same rules yield finding sequences identical apart from each
finding's wall-clock emission `timestamp` field; with that field erased the
output is a deterministic function of the rules and the batch alone (the
window accumulator is re-initialised inside each call, so no state crosses
invocations). -/
theorem scan_transactions_deterministic_mod_clock (rules : RuleDoc) (txs : List TxRec)
    (n₁ n₂ : ℤ) :
    (scanTransactions rules txs n₁).map (fun fs => fs.map eraseEmitted)
      = (scanTransactions rules txs n₂).map (fun fs => fs.map eraseEmitted) := by
  unfold scanTransactions
  cases hfin : rules.finSection with
  | none => rfl
  | some fin =>
    by_cases hen : fin.enabled
    · simp only [hen, if_true]
      rcases scanFrom_clock fin.highValue fin.rapid (windowMinutes fin.rapid) n₁ n₂ txs []
        with ⟨e, he₁, he₂⟩ | ⟨r₁, r₂, hr₁, hr₂, hs, hf⟩
      · rw [he₁, he₂]
      · rw [hr₁, hr₂]
        simp only [Except.map]
        exact congrArg _ hf
    · simp [hen]

end Gaurd

namespace Gaurd

theorem hvFindings_rapid_filter (hv : Option HighValueCfg) (now : ℤ) (a : ℚ) (tx : TxRec) :
    (hvFindings hv now a tx).filter (fun f => f.subtype == "rapid_transactions") = [] := by
  cases hv with
  | none => rfl
  | some cfg =>
    cases hth : cfg.threshold with
    | none => simp [hvFindings, hth]
    | some th =>
      simp only [hvFindings, hth]
      split <;> simp

/-- C3: on every timestamped event the stale entries are evicted before the
count check: the stored list at the check (and after the step) is exactly
the accumulated timestamps `u` with `eventTime - u ≤ windowDuration`
followed by the event's own timestamp — never more, never fewer — and the
rapid finding fires exactly when the length of that evicted list (current
event included) exceeds the configured count. -/
theorem eviction_before_count_check (hv : Option HighValueCfg) (cfg : RapidCfg)
    (w : ℕ) (now : ℤ) (a : ℚ) (tsList : List ℤ) (tx : TxRec) (t : ℤ) (n : ℕ)
    (hw : 0 < w) (ht : txTime tx = some t) (hn : cfg.count = some n) (hpos : 0 < n) :
    (txStep hv (some cfg) w now a tsList tx).1
        = tsList.filter (fun u => decide (t - u ≤ 60 * (w : ℤ))) ++ [t]
    ∧ ((txStep hv (some cfg) w now a tsList tx).2.filter
          (fun f => f.subtype == "rapid_transactions")
        = if n < (tsList.filter (fun u => decide (t - u ≤ 60 * (w : ℤ)))).length + 1
          then [mkRapidFinding cfg w now tx
                  ((tsList.filter (fun u => decide (t - u ≤ 60 * (w : ℤ)))).length + 1)]
          else []) := by
  have hfilt : tsList.filter (fun u => decide (t - 60 * (w : ℤ) ≤ u))
      = tsList.filter (fun u => decide (t - u ≤ 60 * (w : ℤ))) :=
    List.filter_congr fun u _ => decide_eq_decide.mpr (by omega)
  have hstep : rapidStep (some cfg) w now tsList tx
      = (tsList.filter (fun u => decide (t - u ≤ 60 * (w : ℤ))) ++ [t],
         if n < (tsList.filter (fun u => decide (t - u ≤ 60 * (w : ℤ)))).length + 1
         then [mkRapidFinding cfg w now tx
                 ((tsList.filter (fun u => decide (t - u ≤ 60 * (w : ℤ)))).length + 1)]
         else []) := by
    simp only [rapidStep, ht, hn, hw, if_pos, hfilt]
    simp [hpos]
  refine ⟨?_, ?_⟩
  · simp [txStep, hstep]
  · simp only [txStep, hstep, List.filter_append, hvFindings_rapid_filter, List.nil_append]
    split <;> simp [mkRapidFinding]

/-- Witness for C3 at a concrete state: from stored timestamps
`[-10000, 0, 100]` and an event at `t = 3600` with a 60-minute window, the
stale `-10000` is evicted first, the list at the check is `[0, 100, 3600]`,
and with max count 2 the breach fires on this event. -/
theorem eviction_before_count_check_witness :
    (txStep none (some c3Cfg) 60 0 0 [-10000, 0, 100] c3Tx).1 = [0, 100, 3600]
    ∧ (txStep none (some c3Cfg) 60 0 0 [-10000, 0, 100] c3Tx).2.filter
          (fun f => f.subtype == "rapid_transactions")
        = [mkRapidFinding c3Cfg 60 0 c3Tx 3] := by
  have h := eviction_before_count_check none c3Cfg 60 0 0 [-10000, 0, 100] c3Tx 3600 2
    (by decide) rfl rfl (by decide)
  refine ⟨?_, ?_⟩
  · rw [h.1]; decide
  · rw [h.2]; decide

/-- C6 counterexample: a record whose amount is not numeric raises an
uncaught `ValueError` out of `float(tx.get("amount", 0))` (line 97) and
aborts the whole batch: scanned together with a 5000 high-value
transaction the call returns no findings at all, while the same high-value
transaction scanned alone yields its finding — so a per-record error does
abort processing of the rest of the batch. -/
theorem bad_amount_aborts_batch :
    scanTransactions hvRules [c6BadAmountTx, bigTx] 0 = .error "ValueError"
    ∧ scanTransactions hvRules [bigTx] 0
        = .ok [{ ftype := "financial_compliance", subtype := "high_value_transaction",
                 amount := some 5000, thresholdQ := some 1000,
                 txCount := none, thresholdN := none, windowMin := none,
                 action := "alert", severity := "high", source := "transactions",
                 tx := bigTx, emittedAt := 0 }] :=
  ⟨rfl, rfl⟩

/-- C6 amended: a record whose timestamp fails to parse is isolated — it
leaves the rolling window untouched, contributes no rapid finding, still
undergoes the high-value check, and the rest of the batch is processed
exactly as without it; but this isolation does not extend to every
per-record error: a record whose amount is not numeric raises an uncaught
`ValueError` in `float()` that aborts the entire batch (see the
counterexample). -/
theorem bad_timestamp_isolated (hv : Option HighValueCfg) (rapid : Option RapidCfg)
    (w : ℕ) (now : ℤ) (a : ℚ) (tsList : List ℤ) (tx : TxRec) (rest : List TxRec)
    (h : tx.time = .bad) (ha : floatAmount tx.amount = .ok a) :
    scanFrom hv rapid w now tsList (tx :: rest)
      = (scanFrom hv rapid w now tsList rest).map
          (fun r => (r.1, hvFindings hv now a tx ++ r.2))
    ∧ txStep hv rapid w now a tsList tx = (tsList, hvFindings hv now a tx)
    ∧ (hvFindings hv now a tx).filter (fun f => f.subtype == "rapid_transactions") = [] := by
  have htx : txTime tx = none := by simp [txTime, h]
  have hstep : rapidStep rapid w now tsList tx = (tsList, []) := by
    cases rapid <;> simp [rapidStep, htx]
  refine ⟨?_, by simp [txStep, hstep], hvFindings_rapid_filter hv now a tx⟩
  cases hrec : scanFrom hv rapid w now tsList rest with
  | error e => simp [scanFrom, ha, txStep, hstep, hrec, Except.map]
  | ok r => simp [scanFrom, ha, txStep, hstep, hrec, Except.map]

/-- Witness for the C6 amended theorem: a 5000 high-value transaction with
an unparseable timestamp, followed by an ordinary transaction. -/
theorem bad_timestamp_isolated_witness :
    scanFrom (some c6Hv) (some c2Rapid) 60 0 [5] (c6BadTx :: [c6GoodTx])
      = (scanFrom (some c6Hv) (some c2Rapid) 60 0 [5] [c6GoodTx]).map
          (fun r => (r.1, hvFindings (some c6Hv) 0 5000 c6BadTx ++ r.2))
    ∧ txStep (some c6Hv) (some c2Rapid) 60 0 5000 [5] c6BadTx
        = ([5], hvFindings (some c6Hv) 0 5000 c6BadTx)
    ∧ (hvFindings (some c6Hv) 0 5000 c6BadTx).filter
          (fun f => f.subtype == "rapid_transactions") = [] :=
  bad_timestamp_isolated (some c6Hv) (some c2Rapid) 60 0 5000 [5] c6BadTx [c6GoodTx] rfl rfl

theorem rapidFireCount_eq (n : ℕ) : ∀ k m : ℕ, rapidFireCount n m k = k - min k (n - m) := by
  intro k
  induction k with
  | zero => intro m; simp [rapidFireCount]
  | succ k ih =>
    intro m
    simp only [rapidFireCount, ih (m + 1)]
    by_cases h : n < m + 1 <;> simp [h] <;> omega

theorem scanFrom_no_window (hv : Option HighValueCfg) (cfg : RapidCfg) (n : ℕ) (now : ℤ)
    (hn : cfg.count = some n) (hpos : 0 < n) (txs : List TxRec) : ∀ tsList : List ℤ,
    (∀ tx ∈ txs, tx.amount ≠ AmountField.bad) →
    ∃ r, scanFrom hv (some cfg) 0 now tsList txs = .ok r
      ∧ r.1 = tsList ++ parsedTimes txs
      ∧ (r.2.filter (fun f => f.subtype == "rapid_transactions")).length
          = rapidFireCount n tsList.length (parsedTimes txs).length := by
  induction txs with
  | nil =>
    intro ts _
    exact ⟨(ts, []), rfl, by simp [parsedTimes], by simp [parsedTimes, rapidFireCount]⟩
  | cons tx rest ih =>
    intro ts hamt
    obtain ⟨a, ha⟩ : ∃ a, floatAmount tx.amount = .ok a := by
      cases htxa : tx.amount with
      | missing => exact ⟨0, rfl⟩
      | num q => exact ⟨q, rfl⟩
      | bad => exact absurd htxa (hamt tx (List.mem_cons_self _ _))
    have hamt2 : ∀ tx2 ∈ rest, tx2.amount ≠ AmountField.bad :=
      fun tx2 h2 => hamt tx2 (List.mem_cons_of_mem _ h2)
    cases htx : txTime tx with
    | none =>
      have hstep : rapidStep (some cfg) 0 now ts tx = (ts, []) := by
        simp [rapidStep, htx]
      have hpt : parsedTimes (tx :: rest) = parsedTimes rest := by
        simp [parsedTimes, List.filterMap_cons, htx]
      obtain ⟨r, hr, hr1, hr2⟩ := ih ts hamt2
      refine ⟨(r.1, (hvFindings hv now a tx ++ []) ++ r.2), ?_, ?_, ?_⟩
      · simp only [scanFrom, ha, txStep, hstep, hr]
      · simpa [hpt] using hr1
      · simp [List.filter_append, hvFindings_rapid_filter, hr2, hpt]
    | some t =>
      have hstep : rapidStep (some cfg) 0 now ts tx
          = (ts ++ [t], if n < ts.length + 1
              then [mkRapidFinding cfg 0 now tx (ts.length + 1)] else []) := by
        simp [rapidStep, htx, hn, hpos]
      have hpt : parsedTimes (tx :: rest) = t :: parsedTimes rest := by
        simp [parsedTimes, List.filterMap_cons, htx]
      obtain ⟨r, hr, hr1, hr2⟩ := ih (ts ++ [t]) hamt2
      refine ⟨(r.1, (hvFindings hv now a tx
          ++ (if n < ts.length + 1
              then [mkRapidFinding cfg 0 now tx (ts.length + 1)] else [])) ++ r.2),
        ?_, ?_, ?_⟩
      · simp only [scanFrom, ha, txStep, hstep, hr]
      · rw [hr1, hpt]
        simp
      · rw [hpt]
        simp only [List.filter_append, List.length_append, hvFindings_rapid_filter,
          List.nil_append, hr2, List.length_cons]
        simp only [List.length_append, List.length_nil, Nat.zero_add]
        simp only [rapidFireCount]
        by_cases hfire : n < ts.length + 1 <;> simp [hfire, mkRapidFinding]

/-- C10: with the rapid rule enabled but no `timeWindow` token,
`window_minutes` is 0 and no eviction ever happens: after the batch the
accumulated list holds every parsed timestamp of the batch, and the number
of `rapid_transactions` findings equals the number of timestamped
transactions beyond the first `n`, regardless of how far apart in time the
events are. -/
theorem no_time_window_never_evicts (hv : Option HighValueCfg) (cfg : RapidCfg)
    (n : ℕ) (now : ℤ) (txs : List TxRec)
    (hw : cfg.timeWindow = none) (hn : cfg.count = some n) (hpos : 0 < n)
    (hamt : ∀ tx ∈ txs, tx.amount ≠ AmountField.bad) :
    (scanFrom hv (some cfg) (windowMinutes (some cfg)) now [] txs).map (fun r => r.1)
        = .ok (parsedTimes txs)
    ∧ (scanTransactions ⟨none, some ⟨true, hv, some cfg⟩⟩ txs now).map
          (fun fs => (fs.filter (fun f => f.subtype == "rapid_transactions")).length)
        = .ok ((parsedTimes txs).length - min (parsedTimes txs).length n) := by
  have hwm : windowMinutes (some cfg) = 0 := by simp [windowMinutes, hw]
  obtain ⟨r, hr, h1, h2⟩ := scanFrom_no_window hv cfg n now hn hpos txs [] hamt
  rw [hwm]
  constructor
  · rw [hr]
    simp only [Except.map]
    rw [h1]
    simp
  · have hscan : scanTransactions ⟨none, some ⟨true, hv, some cfg⟩⟩ txs now
        = (scanFrom hv (some cfg) 0 now [] txs).map (fun r => r.2) := by
      simp [scanTransactions, hwm]
    rw [hscan, hr]
    simp only [Except.map]
    rw [h2]
    simp [rapidFireCount_eq]

/-- Witness for C10: five transactions days apart (one with an unparseable
timestamp) under a count-2 rule with no time window produce two rapid
findings. -/
theorem no_time_window_never_evicts_witness :
    (scanFrom none (some c10Cfg) (windowMinutes (some c10Cfg)) 0 [] c10Batch).map
          (fun r => r.1)
        = .ok (parsedTimes c10Batch)
    ∧ (scanTransactions ⟨none, some ⟨true, none, some c10Cfg⟩⟩ c10Batch 0).map
          (fun fs => (fs.filter (fun f => f.subtype == "rapid_transactions")).length)
        = .ok ((parsedTimes c10Batch).length - min (parsedTimes c10Batch).length 2) :=
  no_time_window_never_evicts none c10Cfg 2 0 c10Batch rfl rfl (by decide) (by decide)

end Gaurd

namespace Gaurd

theorem statusFindings_not_volume (src : ApiSource) :
    (statusFindings src).filter (fun f => f.ftype == "volume_spike") = [] := by
  unfold statusFindings; split <;> simp

theorem alertFindings_not_volume (src : ApiSource) :
    (alertFindings src).filter (fun f => f.ftype == "volume_spike") = [] := by
  unfold alertFindings; split <;> simp

theorem staleFindings_filter (src : ApiSource) (now : ℤ) (t : String) (h : t ≠ "stale_data") :
    (staleFindings src now).filter (fun f => f.ftype == t) = [] := by
  unfold staleFindings
  cases src.lastActivity with
  | absent => rfl
  | bad => rfl
  | stamp u => split <;> simp [Ne.symm h]

/-- C4: when the volume-spike rule breaches (positive baseline mean and calls
strictly above the configured multiple of it), `_analyze_source` emits
exactly one `volume_spike` finding, with severity `warning` when calls are
strictly below 5 times the baseline and `critical` at or above it. -/
theorem volume_spike_severity (src : ApiSource) (avg : ℚ) (now : ℤ)
    (h1 : 0 < avg) (h2 : avg * callVolumeMultiplier < callsOf src) :
    (analyzeSource src avg now).filter (fun f => f.ftype == "volume_spike")
      = [{ source := nameOf src, ftype := "volume_spike",
           severity := if callsOf src < avg * 5 then "warning" else "critical",
           metaCalls := some (callsOf src), metaAvg := some avg,
           metaMult := some (callsOf src / avg),
           metaStatus := none, metaAlert := none, metaHoursSince := none }] := by
  have hvol : (volumeFindings src avg).filter (fun f => f.ftype == "volume_spike")
      = [{ source := nameOf src, ftype := "volume_spike",
           severity := if callsOf src < avg * 5 then "warning" else "critical",
           metaCalls := some (callsOf src), metaAvg := some avg,
           metaMult := some (callsOf src / avg),
           metaStatus := none, metaAlert := none, metaHoursSince := none }] := by
    unfold volumeFindings
    rw [if_pos ⟨h1, h2⟩, if_pos h1]
    simp
  simp only [analyzeSource, List.filter_append, hvol, statusFindings_not_volume,
    alertFindings_not_volume, staleFindings_filter src now "volume_spike" (by decide),
    List.append_nil]

/-- Witness for C4 at baseline mean 100: 350 calls breach with severity
`warning`, 600 calls breach with severity `critical`. -/
theorem volume_spike_severity_witness :
    (analyzeSource c4SrcWarn 100 0).filter (fun f => f.ftype == "volume_spike")
      = [{ source := "api-a", ftype := "volume_spike", severity := "warning",
           metaCalls := some 350, metaAvg := some 100, metaMult := some (350 / 100),
           metaStatus := none, metaAlert := none, metaHoursSince := none }]
    ∧ (analyzeSource c4SrcCrit 100 0).filter (fun f => f.ftype == "volume_spike")
      = [{ source := "api-b", ftype := "volume_spike", severity := "critical",
           metaCalls := some 600, metaAvg := some 100, metaMult := some (600 / 100),
           metaStatus := none, metaAlert := none, metaHoursSince := none }] := by
  constructor
  · rw [volume_spike_severity c4SrcWarn 100 0 (by norm_num) (by norm_num [callVolumeMultiplier, callsOf, c4SrcWarn])]
    norm_num [c4SrcWarn, callsOf, nameOf]
  · rw [volume_spike_severity c4SrcCrit 100 0 (by norm_num) (by norm_num [callVolumeMultiplier, callsOf, c4SrcCrit])]
    norm_num [c4SrcCrit, callsOf, nameOf]

theorem volumeFindings_not (src : ApiSource) (avg : ℚ) (t : String)
    (h : t ≠ "volume_spike") :
    (volumeFindings src avg).filter (fun f => f.ftype == t) = [] := by
  unfold volumeFindings; split <;> simp [Ne.symm h]

theorem statusFindings_not_alert (src : ApiSource) :
    (statusFindings src).filter (fun f => f.ftype == "alert_escalation") = [] := by
  unfold statusFindings; split <;> simp

theorem alertFindings_not_status (src : ApiSource) :
    (alertFindings src).filter (fun f => f.ftype == "service_status") = [] := by
  unfold alertFindings; split <;> simp

/-- C8: a status other than `active` emits exactly one `service_status`
finding whose severity is `critical` precisely when the status is `down`
(and `warning` otherwise); an alert status other than `normal` emits an
`alert_escalation` finding whose severity is resolved through the explicit
status-to-severity map with default `warning` for unmapped values. -/
theorem status_and_alert_severity (src : ApiSource) (avg : ℚ) (now : ℤ) :
    (statusOf src ≠ "active" →
      (analyzeSource src avg now).filter (fun f => f.ftype == "service_status")
        = [{ source := nameOf src, ftype := "service_status",
             severity := if statusOf src = "down" then "critical" else "warning",
             metaCalls := none, metaAvg := none, metaMult := none,
             metaStatus := some (statusOf src), metaAlert := none, metaHoursSince := none }]
      ∧ ((if statusOf src = "down" then "critical" else "warning") = "critical"
          ↔ statusOf src = "down"))
    ∧ (alertOf src ≠ "normal" →
      (analyzeSource src avg now).filter (fun f => f.ftype == "alert_escalation")
        = [{ source := nameOf src, ftype := "alert_escalation",
             severity := alertSeverityFor (alertOf src),
             metaCalls := none, metaAvg := none, metaMult := none,
             metaStatus := none, metaAlert := some (alertOf src), metaHoursSince := none }]
      ∧ alertSeverityFor (alertOf src)
          = (alertSeverityMap.lookup (alertOf src)).getD "warning") := by
  constructor
  · intro h
    have hs : (statusFindings src).filter (fun f => f.ftype == "service_status")
        = [{ source := nameOf src, ftype := "service_status",
             severity := if statusOf src = "down" then "critical" else "warning",
             metaCalls := none, metaAvg := none, metaMult := none,
             metaStatus := some (statusOf src), metaAlert := none,
             metaHoursSince := none }] := by
      unfold statusFindings
      rw [if_pos h]
      simp
    refine ⟨?_, ?_⟩
    · simp only [analyzeSource, List.filter_append, hs,
        volumeFindings_not src avg "service_status" (by decide),
        alertFindings_not_status,
        staleFindings_filter src now "service_status" (by decide),
        List.nil_append, List.append_nil]
    · by_cases hd : statusOf src = "down" <;> simp [hd]
  · intro h
    have ha : (alertFindings src).filter (fun f => f.ftype == "alert_escalation")
        = [{ source := nameOf src, ftype := "alert_escalation",
             severity := alertSeverityFor (alertOf src),
             metaCalls := none, metaAvg := none, metaMult := none,
             metaStatus := none, metaAlert := some (alertOf src),
             metaHoursSince := none }] := by
      unfold alertFindings
      rw [if_pos h]
      simp
    refine ⟨?_, rfl⟩
    simp only [analyzeSource, List.filter_append, ha,
      volumeFindings_not src avg "alert_escalation" (by decide),
      statusFindings_not_alert,
      staleFindings_filter src now "alert_escalation" (by decide),
      List.nil_append, List.append_nil]

/-- Witness for C8: a `degraded` source yields a `warning` service-status
finding, and its unmapped alert status `odd_state` yields the default
`warning` escalation severity. -/
theorem status_and_alert_severity_witness :
    (analyzeSource c8Src 0 0).filter (fun f => f.ftype == "service_status")
      = [{ source := "api-c", ftype := "service_status", severity := "warning",
           metaCalls := none, metaAvg := none, metaMult := none,
           metaStatus := some "degraded", metaAlert := none, metaHoursSince := none }]
    ∧ (analyzeSource c8Src 0 0).filter (fun f => f.ftype == "alert_escalation")
      = [{ source := "api-c", ftype := "alert_escalation", severity := "warning",
           metaCalls := none, metaAvg := none, metaMult := none,
           metaStatus := none, metaAlert := some "odd_state", metaHoursSince := none }] := by
  constructor
  · rw [((status_and_alert_severity c8Src 0 0).1 (by decide)).1]; decide
  · rw [((status_and_alert_severity c8Src 0 0).2 (by decide)).1]; decide

end Gaurd

namespace Gaurd
/-! Case-blindness of the classifier's compiled character classes. -/

theorem classBlind_isDigit : ClassBlind isDigitCode := by
  intro c
  unfold isDigitCode lowerCode
  split <;> first | rfl | (rw [decide_eq_decide]; omega)

theorem classBlind_isAlpha : ClassBlind isAlphaCode := by
  intro c
  unfold isAlphaCode lowerCode
  split <;> first | rfl | (rw [decide_eq_decide]; omega)

theorem classBlind_isSpace : ClassBlind isSpaceCode := by
  intro c
  unfold isSpaceCode lowerCode
  split <;> first | rfl | (rw [decide_eq_decide]; omega)

theorem classBlind_litEx (x : Nat) (hx : x < 65 ∨ (90 < x ∧ x < 97) ∨ 122 < x) :
    ClassBlind (litEx x) := by
  intro c
  unfold litEx lowerCode
  split <;> first | rfl | (rw [decide_eq_decide]; omega)

theorem classBlind_litCI (l : Nat) (h1 : 97 ≤ l) (h2 : l ≤ 122) : ClassBlind (litCI l) := by
  intro c
  unfold litCI lowerCode
  split <;> first | rfl | (rw [decide_eq_decide]; omega)

theorem classBlind_isWord : ClassBlind isWordCode := by
  intro c
  unfold isWordCode isDigitCode isAlphaCode lowerCode
  split <;> first
    | rfl
    | (rw [Bool.eq_iff_iff]; simp only [Bool.or_eq_true, decide_eq_true_eq]; omega)

theorem classBlind_wsDash : ClassBlind wsDashCls := by
  intro c
  unfold wsDashCls isSpaceCode litEx lowerCode
  split <;> first
    | rfl
    | (rw [Bool.eq_iff_iff]; simp only [Bool.or_eq_true, decide_eq_true_eq]; omega)

theorem classBlind_dotDash : ClassBlind dotDashCls := by
  intro c
  unfold dotDashCls lowerCode
  split <;> first | rfl | (rw [decide_eq_decide]; omega)

theorem classBlind_emailLocal : ClassBlind emailLocalCls := by
  intro c
  unfold emailLocalCls isAlphaCode isDigitCode lowerCode
  split <;> first
    | rfl
    | (rw [Bool.eq_iff_iff]; simp only [Bool.or_eq_true, decide_eq_true_eq]; omega)

theorem classBlind_emailDomain : ClassBlind emailDomainCls := by
  intro c
  unfold emailDomainCls isAlphaCode isDigitCode lowerCode
  split <;> first
    | rfl
    | (rw [Bool.eq_iff_iff]; simp only [Bool.or_eq_true, decide_eq_true_eq]; omega)

theorem classBlind_letterBar : ClassBlind letterBarCls := by
  intro c
  unfold letterBarCls isAlphaCode lowerCode
  split <;> first
    | rfl
    | (rw [Bool.eq_iff_iff]; simp only [Bool.or_eq_true, decide_eq_true_eq]; omega)

theorem classBlind_alphaWs : ClassBlind alphaWsCls := by
  intro c
  unfold alphaWsCls isAlphaCode isSpaceCode lowerCode
  split <;> first
    | rfl
    | (rw [Bool.eq_iff_iff]; simp only [Bool.or_eq_true, decide_eq_true_eq]; omega)

theorem caseBlind_seqList {rs : List RE} (h : ∀ r ∈ rs, CaseBlind r) :
    CaseBlind (seqList rs) := by
  induction rs with
  | nil => exact CaseBlind.eps
  | cons r rest ih =>
    exact CaseBlind.seq (h r (List.mem_cons_self r rest))
      (ih fun x hx => h x (List.mem_cons_of_mem r hx))

theorem caseBlind_altList {rs : List RE} (h : ∀ r ∈ rs, CaseBlind r) :
    CaseBlind (altList rs) := by
  induction rs with
  | nil => exact CaseBlind.cls fun c => rfl
  | cons r rest ih =>
    cases rest with
    | nil => exact h r (by simp)
    | cons r2 rest2 =>
      exact CaseBlind.alt (h r (by simp))
        (ih fun x hx => h x (List.mem_cons_of_mem _ hx))

theorem caseBlind_litWordRE {s : Str} (h : ∀ l ∈ s, 97 ≤ l ∧ l ≤ 122) :
    CaseBlind (litWordRE s) := by
  unfold litWordRE
  apply caseBlind_seqList
  intro r hr
  rw [List.mem_map] at hr
  obtain ⟨l, hl, rfl⟩ := hr
  exact CaseBlind.cls (classBlind_litCI l (h l hl).1 (h l hl).2)

theorem caseBlind_ssnRE : CaseBlind ssnRE := by
  unfold ssnRE
  apply caseBlind_seqList
  intro r hr
  fin_cases hr <;> first
    | exact CaseBlind.wb
    | exact CaseBlind.cls classBlind_isDigit
    | exact CaseBlind.opt (CaseBlind.cls (classBlind_litEx 45 (by omega)))

theorem caseBlind_creditCardRE : CaseBlind creditCardRE := by
  unfold creditCardRE
  apply caseBlind_seqList
  intro r hr
  fin_cases hr <;> first
    | exact CaseBlind.wb
    | exact CaseBlind.cls classBlind_isDigit
    | exact CaseBlind.opt (CaseBlind.cls classBlind_wsDash)

theorem caseBlind_emailRE : CaseBlind emailRE := by
  unfold emailRE
  apply caseBlind_seqList
  intro r hr
  fin_cases hr <;> first
    | exact CaseBlind.wb
    | exact CaseBlind.seq (CaseBlind.cls classBlind_emailLocal)
        (CaseBlind.star classBlind_emailLocal)
    | exact CaseBlind.cls (classBlind_litEx 64 (by omega))
    | exact CaseBlind.seq (CaseBlind.cls classBlind_emailDomain)
        (CaseBlind.star classBlind_emailDomain)
    | exact CaseBlind.cls (classBlind_litEx 46 (by omega))
    | exact CaseBlind.cls classBlind_letterBar
    | exact CaseBlind.star classBlind_letterBar

theorem caseBlind_phoneRE : CaseBlind phoneRE := by
  unfold phoneRE
  apply caseBlind_seqList
  intro r hr
  fin_cases hr <;> first
    | exact CaseBlind.wb
    | exact CaseBlind.cls classBlind_isDigit
    | exact CaseBlind.opt (CaseBlind.cls classBlind_dotDash)

theorem caseBlind_addressRE : CaseBlind addressRE := by
  unfold addressRE
  apply caseBlind_seqList
  intro r hr
  have hall : ∀ w ∈ roadWords, ∀ l ∈ w, 97 ≤ l ∧ l ≤ 122 := by decide
  fin_cases hr <;> first
    | exact CaseBlind.wb
    | exact CaseBlind.seq (CaseBlind.cls classBlind_isDigit)
        (CaseBlind.star classBlind_isDigit)
    | exact CaseBlind.seq (CaseBlind.cls classBlind_isSpace)
        (CaseBlind.star classBlind_isSpace)
    | exact CaseBlind.seq (CaseBlind.cls classBlind_alphaWs)
        (CaseBlind.star classBlind_alphaWs)
    | (apply caseBlind_altList; intro r2 hr2; rw [List.mem_map] at hr2;
       obtain ⟨w, hw, rfl⟩ := hr2; exact caseBlind_litWordRE (hall w hw))

theorem caseBlind_nameRE : CaseBlind nameRE := by
  unfold nameRE
  apply caseBlind_seqList
  intro r hr
  fin_cases hr <;> first
    | exact CaseBlind.wb
    | exact CaseBlind.cls classBlind_isAlpha
    | exact CaseBlind.seq (CaseBlind.cls classBlind_isAlpha)
        (CaseBlind.star classBlind_isAlpha)
    | exact CaseBlind.seq (CaseBlind.cls classBlind_isSpace)
        (CaseBlind.star classBlind_isSpace)

end Gaurd

namespace Gaurd

/-! Matching on a case-blind regex commutes with ASCII lower-casing of the
input text: the same spans match at the same positions. -/

theorem starRun_lower (p : Nat → Bool) (hp : ClassBlind p) : ∀ (cs : Str) (prev : Option Nat),
    starRun p (prev.map lowerCode) (lowerStr cs) = (starRun p prev cs).map lowerState := by
  intro cs
  induction cs with
  | nil => intro prev; rfl
  | cons c rest ih =>
    intro prev
    show starRun p (prev.map lowerCode) (lowerCode c :: lowerStr rest)
        = (starRun p prev (c :: rest)).map lowerState
    simp only [starRun, hp c]
    split
    · have h2 : starRun p (some (lowerCode c)) (lowerStr rest)
          = (starRun p (some c) rest).map lowerState := ih (some c)
      rw [h2, List.map_append]
      simp [lowerState, lowerStr]
    · simp [lowerState, lowerStr]

theorem isWord_lower (c : Nat) : isWordCode (lowerCode c) = isWordCode c :=
  classBlind_isWord c

theorem mrun_lower {re : RE} (h : CaseBlind re) : ∀ (prev : Option Nat) (cs : Str),
    mrun re (prev.map lowerCode) (lowerStr cs) = (mrun re prev cs).map lowerState := by
  induction h with
  | eps => intro prev cs; rfl
  | cls hp =>
    intro prev cs
    cases cs with
    | nil => rfl
    | cons c rest =>
      show mrun _ (prev.map lowerCode) (lowerCode c :: lowerStr rest) = _
      simp only [mrun, hp c]
      split <;> simp [lowerState, lowerStr]
  | seq ha hb iha ihb =>
    intro prev cs
    simp only [mrun]
    rw [iha, List.flatMap_map, List.map_flatMap]
    have hfun : (fun s : Option Nat × Str => mrun _ (lowerState s).1 (lowerState s).2)
        = fun s : Option Nat × Str => (mrun _ s.1 s.2).map lowerState :=
      funext fun s => ihb s.1 s.2
    exact congrArg _ hfun
  | alt ha hb iha ihb =>
    intro prev cs
    simp only [mrun]
    rw [iha, ihb, List.map_append]
  | opt ha iha =>
    intro prev cs
    simp only [mrun]
    rw [iha, List.map_append]
    simp [lowerState]
  | star hp => intro prev cs; exact starRun_lower _ hp cs prev
  | wb =>
    intro prev cs
    cases prev <;> cases cs <;>
      (simp only [mrun, Option.map_some', Option.map_none', lowerStr, List.map_cons,
        List.map_nil, isWord_lower]
       split <;> simp [lowerState, lowerStr])

theorem findAllAux_lower {re : RE} (h : CaseBlind re) : ∀ (fuel : ℕ) (prev : Option Nat) (cs : Str),
    findAllAux re fuel (prev.map lowerCode) (List.map lowerCode cs)
      = (findAllAux re fuel prev cs).map lowerStr := by
  intro fuel
  induction fuel with
  | zero => intro prev cs; rfl
  | succ fuel ih =>
    intro prev cs
    cases cs with
    | nil => rfl
    | cons c rest =>
      simp only [List.map_cons, findAllAux]
      have hm2 : mrun re (prev.map lowerCode) (lowerCode c :: List.map lowerCode rest)
          = (mrun re prev (c :: rest)).map lowerState := mrun_lower h prev (c :: rest)
      rw [hm2]
      cases hm : mrun re prev (c :: rest) with
      | nil => exact ih (some c) rest
      | cons s tl =>
        obtain ⟨p', rest'⟩ := s
        simp only [List.map_cons, lowerState, lowerStr, List.length_cons, List.length_map]
        split
        · exact ih (some c) rest
        · have htail : findAllAux re fuel (p'.map lowerCode) (List.map lowerCode rest')
              = (findAllAux re fuel p' rest').map lowerStr := ih p' rest'
          rw [htail, List.map_cons]
          congr 1
          simp only [lowerStr, List.map_take, List.map_cons]

theorem findAll_lower {re : RE} (h : CaseBlind re) (text : Str) :
    findAll re (lowerStr text) = (findAll re text).map lowerStr := by
  unfold findAll
  rw [show (lowerStr text).length = text.length from List.length_map _ _]
  exact findAllAux_lower h (text.length + 1) none text

end Gaurd

namespace Gaurd

/-! Matches are substrings of the scanned text, and `strFind` returns the
least occurrence offset. -/

theorem takeIsPre (n : ℕ) (l : Str) : l.take n <+: l :=
  List.take_prefix n l

theorem isPreOfIff {l₁ l₂ : Str} : l₁.isPrefixOf l₂ = true ↔ l₁ <+: l₂ :=
  List.isPrefixOf_iff_prefix

theorem nilIsPre (l : Str) : ([] : Str) <+: l :=
  List.nil_prefix

theorem starRun_suffix (p : Nat → Bool) : ∀ (cs : Str) (prev : Option Nat)
    (s : Option Nat × Str), s ∈ starRun p prev cs → s.2 <:+ cs := by
  intro cs
  induction cs with
  | nil =>
    intro prev s hs
    simp only [starRun, List.mem_singleton] at hs
    subst hs
    exact List.suffix_refl _
  | cons c rest ih =>
    intro prev s hs
    simp only [starRun] at hs
    by_cases hpc : p c
    · rw [if_pos hpc] at hs
      rcases List.mem_append.mp hs with hs2 | hs2
      · exact (ih (some c) s hs2).trans (List.suffix_cons c rest)
      · rw [List.mem_singleton] at hs2
        subst hs2
        exact List.suffix_refl _
    · rw [if_neg hpc, List.mem_singleton] at hs
      subst hs
      exact List.suffix_refl _

theorem mrun_suffix (re : RE) : ∀ (prev : Option Nat) (cs : Str) (s : Option Nat × Str),
    s ∈ mrun re prev cs → s.2 <:+ cs := by
  induction re with
  | eps =>
    intro prev cs s hs
    simp only [mrun, List.mem_singleton] at hs
    subst hs
    exact List.suffix_refl _
  | cls p =>
    intro prev cs s hs
    cases cs with
    | nil => simp [mrun] at hs
    | cons c rest =>
      simp only [mrun] at hs
      by_cases hpc : p c
      · rw [if_pos hpc, List.mem_singleton] at hs
        subst hs
        exact List.suffix_cons c rest
      · rw [if_neg hpc] at hs
        simp at hs
  | seq a b iha ihb =>
    intro prev cs s hs
    simp only [mrun, List.mem_flatMap] at hs
    obtain ⟨s1, hs1, hs2⟩ := hs
    exact (ihb s1.1 s1.2 s hs2).trans (iha prev cs s1 hs1)
  | alt a b iha ihb =>
    intro prev cs s hs
    simp only [mrun] at hs
    rcases List.mem_append.mp hs with hs2 | hs2
    · exact iha prev cs s hs2
    · exact ihb prev cs s hs2
  | opt a iha =>
    intro prev cs s hs
    simp only [mrun] at hs
    rcases List.mem_append.mp hs with hs2 | hs2
    · exact iha prev cs s hs2
    · rw [List.mem_singleton] at hs2
      subst hs2
      exact List.suffix_refl _
  | star p =>
    intro prev cs s hs
    exact starRun_suffix p cs prev s hs
  | wb =>
    intro prev cs s hs
    simp only [mrun] at hs
    split at hs
    · rw [List.mem_singleton] at hs
      subst hs
      exact List.suffix_refl _
    · simp at hs

theorem findAllAux_infix (re : RE) : ∀ (fuel : ℕ) (prev : Option Nat) (cs : Str) (m : Str),
    m ∈ findAllAux re fuel prev cs → m <:+: cs := by
  intro fuel
  induction fuel with
  | zero => intro prev cs m hm; simp [findAllAux] at hm
  | succ fuel ih =>
    intro prev cs m hm
    cases cs with
    | nil => simp [findAllAux] at hm
    | cons c rest =>
      simp only [findAllAux] at hm
      split at hm
      · exact List.infix_cons (ih (some c) rest m hm)
      · rename_i p' rest' tl heq
        split at hm
        · exact List.infix_cons (ih (some c) rest m hm)
        · rcases List.mem_cons.mp hm with rfl | hm2
          · exact (takeIsPre _ _).isInfix
          · have hmem : ((p', rest') : Option Nat × Str) ∈ mrun re prev (c :: rest) := by
              rw [heq]; exact List.mem_cons_self _ _
            have hsuf := mrun_suffix re prev (c :: rest) (p', rest') hmem
            exact (ih p' rest' m hm2).trans hsuf.isInfix

theorem infix_occursAt {text m : Str} (h : m <:+: text) : ∃ i, occursAt text m i := by
  obtain ⟨s, t, heq⟩ := h
  refine ⟨s.length, ?_⟩
  unfold occursAt
  rw [← heq, List.append_assoc, List.drop_left]
  exact List.prefix_append m t

theorem strFindAux_shift (pat : Str) : ∀ (text : Str) (i : ℕ),
    strFindAux pat text i = (strFindAux pat text 0).map (· + i) := by
  intro text
  induction text with
  | nil =>
    intro i
    simp only [strFindAux]
    split <;> simp
  | cons c rest ih =>
    intro i
    simp only [strFindAux]
    split
    · simp
    · rw [ih (i + 1), ih 1, Option.map_map]
      congr 1
      funext j
      simp only [Function.comp]
      omega

theorem strFindAux_found (pat : Str) : ∀ (text : Str) (j : ℕ),
    strFindAux pat text 0 = some j →
    pat <+: text.drop j ∧ ∀ e, e < j → ¬ pat <+: text.drop e := by
  intro text
  induction text with
  | nil =>
    intro j hj
    simp only [strFindAux] at hj
    split at hj
    · rename_i hemp
      obtain rfl : (0 : ℕ) = j := by injection hj
      refine ⟨?_, fun e he => absurd he (Nat.not_lt_zero e)⟩
      rw [List.isEmpty_iff] at hemp
      subst hemp
      exact nilIsPre _
    · cases hj
  | cons c rest ih =>
    intro j hj
    simp only [strFindAux] at hj
    by_cases hp : pat.isPrefixOf (c :: rest)
    · rw [if_pos hp] at hj
      obtain rfl : (0 : ℕ) = j := by injection hj
      refine ⟨?_, fun e he => absurd he (Nat.not_lt_zero e)⟩
      simpa using isPreOfIff.mp hp
    · rw [if_neg hp] at hj
      rw [strFindAux_shift pat rest 1] at hj
      cases h0 : strFindAux pat rest 0 with
      | none => rw [h0] at hj; simp at hj
      | some j0 =>
        rw [h0] at hj
        simp only [Option.map_some', Option.some.injEq] at hj
        obtain ⟨hpre, hmin⟩ := ih j0 h0
        subst hj
        constructor
        · simpa [List.drop_succ_cons] using hpre
        · intro e he
          cases e with
          | zero =>
            intro hcon
            exact hp (isPreOfIff.mpr (by simpa using hcon))
          | succ e2 =>
            intro hcon
            exact hmin e2 (by omega) (by simpa [List.drop_succ_cons] using hcon)

theorem strFindAux_exists (pat : Str) : ∀ (text : Str) (i : ℕ),
    pat <+: text.drop i → ∃ j, strFindAux pat text 0 = some j := by
  intro text
  induction text with
  | nil =>
    intro i hi
    simp only [List.drop_nil] at hi
    rw [List.prefix_nil] at hi
    subst hi
    exact ⟨0, by simp [strFindAux]⟩
  | cons c rest ih =>
    intro i hi
    by_cases hp : pat.isPrefixOf (c :: rest)
    · exact ⟨0, by simp [strFindAux, hp]⟩
    · cases i with
      | zero =>
        exact absurd (isPreOfIff.mpr (by simpa using hi)) hp
      | succ i2 =>
        obtain ⟨j, hj⟩ := ih i2 (by simpa [List.drop_succ_cons] using hi)
        refine ⟨j + 1, ?_⟩
        simp only [strFindAux, if_neg hp]
        rw [strFindAux_shift pat rest 1, hj]
        rfl

theorem strFind_spec {text pat : Str} (h : ∃ i, occursAt text pat i) :
    ∃ i : ℕ, strFind text pat = (i : Int) ∧ occursAt text pat i
      ∧ ∀ j, j < i → ¬ occursAt text pat j := by
  obtain ⟨i0, hi0⟩ := h
  obtain ⟨j, hj⟩ := strFindAux_exists pat text i0 hi0
  obtain ⟨hpre, hmin⟩ := strFindAux_found pat text j hj
  exact ⟨j, by simp [strFind, hj], hpre, fun e he => hmin e he⟩

theorem filter_classBlock (text : Str) (t t' : String) (cfg : PatCfg) (ms : List Str) :
    (ms.map (mkClassification text t cfg)).filter (fun c => c.ctype == t')
      = if t = t' then ms.map (mkClassification text t cfg) else [] := by
  by_cases h : t = t'
  · subst h
    rw [if_pos rfl]
    apply List.filter_eq_self.mpr
    intro c hc
    rw [List.mem_map] at hc
    obtain ⟨m, hm, rfl⟩ := hc
    exact beq_self_eq_true t
  · rw [if_neg h]
    apply List.filter_eq_nil_iff.mpr
    intro c hc
    rw [List.mem_map] at hc
    obtain ⟨m, hm, rfl⟩ := hc
    simp [mkClassification, h]

end Gaurd

namespace Gaurd

/-- C7: text classification (a) reports, per pattern type, one finding for
each element of that pattern's non-overlapping `findall` match list — all
matches, not just the first, with each pattern evaluated independently and
no deduplication across types (the per-type finding lists are exactly the
per-pattern match lists, so a substring matching several types appears once
per type); (b) matches case-insensitively — lower-casing the text yields
the lower-cased matches at the same positions; and (c) reports as position
the character offset of the first occurrence of the matched substring in
the original text. -/
theorem classify_matching_c7 (text : Str) :
    (∀ t cfg, (t, cfg) ∈ classifierPatterns →
        (classifyText text).filter (fun c => c.ctype == t)
          = (findAll cfg.re text).map (mkClassification text t cfg))
    ∧ (∀ t cfg, (t, cfg) ∈ classifierPatterns →
        findAll cfg.re (lowerStr text) = (findAll cfg.re text).map lowerStr)
    ∧ (∀ c, c ∈ classifyText text →
        ∃ i : ℕ, c.position = (i : Int) ∧ occursAt text c.originalContent i
          ∧ ∀ j, j < i → ¬ occursAt text c.originalContent j) := by
  refine ⟨?_, ?_, ?_⟩
  · intro t cfg h
    fin_cases h <;>
      (simp only [classifyText, classifierPatterns, List.flatMap_cons, List.flatMap_nil,
        List.append_nil, List.filter_append, filter_classBlock]
       simp +decide)
  · intro t cfg h
    fin_cases h
    · exact findAll_lower caseBlind_ssnRE text
    · exact findAll_lower caseBlind_creditCardRE text
    · exact findAll_lower caseBlind_emailRE text
    · exact findAll_lower caseBlind_phoneRE text
    · exact findAll_lower caseBlind_addressRE text
    · exact findAll_lower caseBlind_nameRE text
  · intro c hc
    unfold classifyText at hc
    rw [List.mem_flatMap] at hc
    obtain ⟨tc, htc, hc2⟩ := hc
    rw [List.mem_map] at hc2
    obtain ⟨m, hm, rfl⟩ := hc2
    have hinf : m <:+: text := findAllAux_infix tc.2.re (text.length + 1) none text m hm
    obtain ⟨i, hfind, hocc2, hmin⟩ := strFind_spec (infix_occursAt hinf)
    exact ⟨i, hfind, hocc2, hmin⟩

/-- Witness for C7 at a concrete text with two SSN matches and a cross-type
(address and name) overlap. -/
theorem classify_matching_c7_witness :
    (classifyText c7Text).filter (fun c => c.ctype == "ssn")
      = (findAll ssnRE c7Text).map
          (mkClassification c7Text "ssn" ⟨ssnRE, "high", "Social Security Number"⟩) :=
  (classify_matching_c7 c7Text).1 "ssn" ⟨ssnRE, "high", "Social Security Number"⟩
    (by unfold classifierPatterns; exact List.mem_cons_self _ _)

end Gaurd
